import Mathlib

/-!
Verification development for the ImageMerge repository.

Shallow embedding of the correspondence-to-warp engine:
* `src/warping.py` — `HomographyWarper.warp` and `TPSWarper.warp` (thin-plate
  spline system assembly, linear solve, dense-map evaluation, resampling call);
* `src/main.py` — `ImageAlignmentApp.run_warp` (landmark aggregation and
  pipeline orchestration).

Machine floating-point arithmetic is idealized as real arithmetic; calls into
external libraries (`cv2.findHomography`, `cv2.remap`, `cv2.warpPerspective`)
are represented by the argument records the repository code hands them, or by
function parameters, since their implementations are not part of the
repository.
-/

namespace ImageMerge

/-- A 2-D point, the element type of the `src_pts` / `dst_pts` arrays. -/
abbrev Pt : Type := ℝ × ℝ

/-- OpenCV interpolation flags that appear at the repository's call sites:
`cv2.INTER_LINEAR` (the documented default of `cv2.warpPerspective` when the
`flags` argument is omitted) and `cv2.INTER_CUBIC`. -/
inductive InterpMode where
  | nearest : InterpMode
  | linear : InterpMode
  | cubic : InterpMode
deriving DecidableEq, Repr

/-- Python exceptions that the embedded code can raise and does not catch. -/
inductive PyErr where
  | valueError : PyErr
deriving DecidableEq, Repr

/-- Squared euclidean distance between two points, as computed by
`np.sum(diff**2, axis=-1)` in `TPSWarper.warp`. -/
def sqDist (p q : Pt) : ℝ := (p.1 - q.1) ^ 2 + (p.2 - q.2) ^ 2

/-- The TPS radial basis applied to a squared distance, exactly as in
`TPSWarper.warp`: the squared distance is clamped below by `1e-10`
(`np.maximum(dist_sq, 1e-10)`) and then `0.5 * d_sq * np.log(d_sq)` is taken
on the clamped value.  This same expression is used both for the kernel
matrix `K` and for the per-row evaluation loop. -/
noncomputable def tpsU (d2 : ℝ) : ℝ :=
  0.5 * max d2 1e-10 * Real.log (max d2 1e-10)

/-- The `N×N` kernel matrix `K` of `TPSWarper.warp`, built from the pairwise
squared distances of the destination control points. -/
noncomputable def tps_K (n : ℕ) (dst : Fin n → Pt) : Matrix (Fin n) (Fin n) ℝ :=
  Matrix.of fun i j => tpsU (sqDist (dst i) (dst j))

/-- The `N×3` matrix `P = np.column_stack((np.ones(N), dst_pts))` of
`TPSWarper.warp`, whose row `i` is `[1, x_i, y_i]` over the destination
control points. -/
def tps_P (n : ℕ) (dst : Fin n → Pt) : Matrix (Fin n) (Fin 3) ℝ :=
  Matrix.of fun i k => ![1, (dst i).1, (dst i).2] k

/-- The `(N+3)×(N+3)` system matrix `L` of `TPSWarper.warp`, assembled by the
same sequence of block writes as the code: start from `np.zeros`, write
`L[:N,:N] = K`, `L[:N,N:] = P`, `L[N:,:N] = P.T`, and finally add the
regularization `L[:N,:N] += np.eye(N) * 1e-4`. -/
noncomputable def tps_L (n : ℕ) (dst : Fin n → Pt) :
    Matrix (Fin (n + 3)) (Fin (n + 3)) ℝ :=
  let L0 : Matrix (Fin (n + 3)) (Fin (n + 3)) ℝ := 0
  let L1 : Matrix (Fin (n + 3)) (Fin (n + 3)) ℝ := Matrix.of fun i j =>
    if h : (i : ℕ) < n ∧ (j : ℕ) < n then tps_K n dst ⟨i, h.1⟩ ⟨j, h.2⟩ else L0 i j
  let L2 : Matrix (Fin (n + 3)) (Fin (n + 3)) ℝ := Matrix.of fun i j =>
    if h : (i : ℕ) < n ∧ n ≤ (j : ℕ) then
      tps_P n dst ⟨i, h.1⟩ ⟨(j : ℕ) - n, by have := j.isLt; omega⟩
    else L1 i j
  let L3 : Matrix (Fin (n + 3)) (Fin (n + 3)) ℝ := Matrix.of fun i j =>
    if h : n ≤ (i : ℕ) ∧ (j : ℕ) < n then
      tps_P n dst ⟨j, h.2⟩ ⟨(i : ℕ) - n, by have := i.isLt; omega⟩
    else L2 i j
  Matrix.of fun i j =>
    L3 i j + if (i : ℕ) < n ∧ (i : ℕ) = (j : ℕ) then 1e-4 else 0

/-- The `(N+3)×2` right-hand side `V` of `TPSWarper.warp`, assembled as in the
code: `V = np.zeros((N+3, 2))` followed by the write `V[:N, :] = src_pts`. -/
def tps_V (n : ℕ) (src : Fin n → Pt) : Matrix (Fin (n + 3)) (Fin 2) ℝ :=
  let V0 : Matrix (Fin (n + 3)) (Fin 2) ℝ := 0
  Matrix.of fun i k =>
    if h : (i : ℕ) < n then
      if k = 0 then (src ⟨i, h⟩).1 else (src ⟨i, h⟩).2
    else V0 i k

/-- Embedding of `np.linalg.solve`, idealized over the reals: the LAPACK solver raises
`LinAlgError` exactly on a singular system, and otherwise returns the unique
solution `A⁻¹ * B` of `A * X = B`. -/
noncomputable def np_linalg_solve {m k : ℕ} (A : Matrix (Fin m) (Fin m) ℝ)
    (B : Matrix (Fin m) (Fin k) ℝ) : Option (Matrix (Fin m) (Fin k) ℝ) :=
  if A.det = 0 then none else some (A⁻¹ * B)

/-- Evaluation of the fitted spline at a query point `q`, exactly the body of
the per-row loop of `TPSWarper.warp`: the affine part `[1, qx, qy] · a_vals`
(rows `N`, `N+1`, `N+2` of the weight matrix) plus the radial part
`Σ_j U(‖q - dst_j‖²) · w_j` (rows `0..N` of the weight matrix), per output
dimension. -/
noncomputable def tpsEval (n : ℕ) (dst : Fin n → Pt)
    (weights : Matrix (Fin (n + 3)) (Fin 2) ℝ) (q : Pt) : Pt :=
  let affine : Fin 2 → ℝ := fun k =>
    1 * weights ⟨n, by omega⟩ k + q.1 * weights ⟨n + 1, by omega⟩ k +
      q.2 * weights ⟨n + 2, by omega⟩ k
  let radial : Fin 2 → ℝ := fun k =>
    ∑ j : Fin n, tpsU (sqDist q (dst j)) * weights ⟨(j : ℕ), by have := j.isLt; omega⟩ k
  (affine 0 + radial 0, affine 1 + radial 1)

/-- The argument record of the final `cv2.remap(img_src, map_x, map_y,
cv2.INTER_CUBIC)` call of `TPSWarper.warp`.  `cv2.remap` itself is an external
library routine, so the embedding stops at the arguments the repository code
passes it: the source image, the output size, the two dense coordinate maps
(indexed `mapx y x`, matching `map_x[y, x]`), and the interpolation flag. -/
structure RemapJob (Img : Type) where
  img : Img
  size : ℕ × ℕ
  mapx : ℕ → ℕ → ℝ
  mapy : ℕ → ℕ → ℝ
  interp : InterpMode

/-- The `dst_pts` array viewed as a function on row indices. -/
def tpsDstF (dst_pts : List Pt) : Fin dst_pts.length → Pt := fun i => dst_pts.get i

/-- The effect of the numpy block write `V[:N, :] = src_pts` on row `i` when
the shapes are compatible: the `i`-th row of `src_pts`, or its single row
broadcast to every `i` when `len(src_pts) = 1`. -/
def tpsSrcF (src_pts dst_pts : List Pt) : Fin dst_pts.length → Pt := fun i =>
  if src_pts.length = 1 then src_pts.getD 0 (0, 0) else src_pts.getD (i : ℕ) (0, 0)

/-- The regularized linear solve of `TPSWarper.warp`:
`np.linalg.solve(L, V)` on the system assembled from `dst_pts` (matrix) and
`src_pts` (right-hand side). -/
noncomputable def tpsSolve (src_pts dst_pts : List Pt) :
    Option (Matrix (Fin (dst_pts.length + 3)) (Fin 2) ℝ) :=
  np_linalg_solve (tps_L dst_pts.length (tpsDstF dst_pts))
    (tps_V dst_pts.length (tpsSrcF src_pts dst_pts))

/-- Embedding of `TPSWarper.warp` from `src/warping.py`.

Control flow of the source, in order: `N = dst_pts.shape[0]`, assembly of `K`,
`P`, `L` and `V` from `dst_pts`, the numpy block write `V[:N, :] = src_pts`
(which raises `ValueError` unless `src_pts` has `N` rows or broadcasts from a
single row), the regularized solve inside `try` (a `LinAlgError` is caught and
turned into `return None`), then the per-row dense-map evaluation and the
final `cv2.remap(..., cv2.INTER_CUBIC)` call, represented by its argument
record.  The function never inspects `img_src`, so it is polymorphic in the
image type. -/
noncomputable def tpsWarp {Img : Type} (img_src : Img) (src_pts dst_pts : List Pt)
    (output_size : ℕ × ℕ) : Except PyErr (Option (RemapJob Img)) :=
  if src_pts.length = dst_pts.length ∨ src_pts.length = 1 then
    match tpsSolve src_pts dst_pts with
    | none => .ok none
    | some weights =>
        .ok (some { img := img_src, size := output_size,
                    mapx := fun y x =>
                      (tpsEval dst_pts.length (tpsDstF dst_pts) weights ((x : ℝ), (y : ℝ))).1,
                    mapy := fun y x =>
                      (tpsEval dst_pts.length (tpsDstF dst_pts) weights ((x : ℝ), (y : ℝ))).2,
                    interp := InterpMode.cubic })
  else .error .valueError

/-- The argument record of the `cv2.warpPerspective(img_src, H, output_size)`
call of `HomographyWarper.warp`.  The call site passes no `flags` argument, so
OpenCV's documented default `flags=INTER_LINEAR` applies; the record stores
that effective interpolation mode. -/
structure PerspJob (Img : Type) where
  img : Img
  H : Matrix (Fin 3) (Fin 3) ℝ
  size : ℕ × ℕ
  interp : InterpMode

/-- Embedding of `HomographyWarper.warp` from `src/warping.py`.  `cv2.findHomography` is an
external library routine (robust RANSAC fit), so it is a function parameter;
the repository code returns `None` when it yields no matrix, and otherwise
calls `cv2.warpPerspective` with no interpolation flags, hence with OpenCV's
default `INTER_LINEAR`. -/
def homographyWarp {Img : Type}
    (findHomography : List Pt → List Pt → Option (Matrix (Fin 3) (Fin 3) ℝ))
    (img_src : Img) (src_pts dst_pts : List Pt) (output_size : ℕ × ℕ) :
    Option (PerspJob Img) :=
  match findHomography src_pts dst_pts with
  | none => none
  | some H => some { img := img_src, H := H, size := output_size,
                     interp := InterpMode.linear }

/-- Application of a 3×3 homography matrix to a point in homogeneous
coordinates; `none` when the homogeneous denominator vanishes. -/
noncomputable def projApply (H : Matrix (Fin 3) (Fin 3) ℝ) (p : Pt) : Option Pt :=
  let w := H 2 0 * p.1 + H 2 1 * p.2 + H 2 2
  if w = 0 then none
  else some ((H 0 0 * p.1 + H 0 1 * p.2 + H 0 2) / w,
             (H 1 0 * p.1 + H 1 1 * p.2 + H 1 2) / w)

/-- A homography exactly fits an index-aligned correspondence list when it
maps each source point to the corresponding destination point. -/
noncomputable def fitsAll (H : Matrix (Fin 3) (Fin 3) ℝ) (src dst : List Pt) : Prop :=
  ∀ i : ℕ, ∀ hs : i < src.length, ∀ hd : i < dst.length,
    projApply H (src.get ⟨i, hs⟩) = some (dst.get ⟨i, hd⟩)

/-- The per-image annotation state held by one canvas pane of
`ImageAlignmentApp`: free points, line segments (start, end), and quad faces
(four corners in fixed order).  The aggregation code only moves these values
around, so the point type is a parameter. -/
structure PaneAnnotations (P : Type) where
  points : List P
  lines : List (P × P)
  faces : List (P × P × P × P)

/-- The landmark collection of `ImageAlignmentApp.run_warp`
(`src/main.py`): start from each pane's free points, then append, for the
first `min(len(lines1), len(lines2))` line pairs, the start and end point of
each line, then, for the first `min(len(faces1), len(faces2))` face pairs,
the 4 corners of each face.  Returns the pair `(pts1, pts2)`. -/
def collect_pts {P : Type} (pane1 pane2 : PaneAnnotations P) : List P × List P :=
  let n_lines := min pane1.lines.length pane2.lines.length
  let n_faces := min pane1.faces.length pane2.faces.length
  let pts1 := pane1.points
    ++ (pane1.lines.take n_lines).flatMap (fun l => [l.1, l.2])
    ++ (pane1.faces.take n_faces).flatMap (fun f => [f.1, f.2.1, f.2.2.1, f.2.2.2])
  let pts2 := pane2.points
    ++ (pane2.lines.take n_lines).flatMap (fun l => [l.1, l.2])
    ++ (pane2.faces.take n_faces).flatMap (fun f => [f.1, f.2.1, f.2.2.1, f.2.2.2])
  (pts1, pts2)

/-- The correspondence lists that `ImageAlignmentApp.run_warp` actually hands
to the warper: `n = min(len(pts1), len(pts2))`, `src_pts = pts2[:n]`,
`dst_pts = pts1[:n]` — the truncation is applied to the already concatenated
lists. -/
def run_warp_srcdst {P : Type} (pane1 pane2 : PaneAnnotations P) : List P × List P :=
  let pts := collect_pts pane1 pane2
  let n := min pts.1.length pts.2.length
  (pts.2.take n, pts.1.take n)

/-- Outcome states of one `run_warp` invocation, following the branches of
`ImageAlignmentApp.run_warp`: a successful warp, a warper returning `None`
("Warping calculation failed."), the refusal branch with both images loaded
("Select at least 4 constraints."), and the silent branch with an image
missing. -/
inductive WarpOutcome (Img : Type) where
  | warped (result : Img) : WarpOutcome Img
  | warpFailed : WarpOutcome Img
  | insufficient : WarpOutcome Img
  | missingImages : WarpOutcome Img
deriving DecidableEq

/-- Embedding of `ImageAlignmentApp.run_warp` from `src/main.py`, parameterized over the
selected warper strategy (`warper.warp(img, src, dst, size)`, returning the
warped image or `None`) and over the shape function giving the first image's
pixel dimensions.  It collects the landmark lists, truncates both to
`n = min(len(pts1), len(pts2))`, and invokes the warper only when `n >= 4`
and both images are loaded. -/
def run_warp {Img : Type} (warper : Img → List Pt → List Pt → ℕ × ℕ → Option Img)
    (shape : Img → ℕ × ℕ) (pane1 pane2 : PaneAnnotations Pt)
    (cv_img1 cv_img2 : Option Img) : WarpOutcome Img :=
  let pts := collect_pts pane1 pane2
  let n := min pts.1.length pts.2.length
  match cv_img1, cv_img2 with
  | some img1, some img2 =>
      if 4 ≤ n then
        match warper img2 (pts.2.take n) (pts.1.take n) (shape img1) with
        | some w => .warped w
        | none => .warpFailed
      else .insufficient
  | _, _ => .missingImages

/-! ### Claim-side definitions

These definitions follow the words of the specification (and of the claims
derived from it), to be compared with the definitions translated from the
source above. -/

/-- The TPS system matrix as the specification words it (§4.3 / claim C1):
the block matrix `[[K, P], [Pᵀ, 0]]` where `K[i][j] = 0.5 · d² · ln(d²)` on
the squared distance between `dst_i` and `dst_j` clamped below by `1e-10`,
a regularization of `1e-4` added to each diagonal entry of the `K` block,
and `P` has rows `[1, x_i, y_i]` over the destination control points. -/
noncomputable def claim_L (n : ℕ) (dst : Fin n → Pt) :
    Matrix (Fin (n + 3)) (Fin (n + 3)) ℝ :=
  Matrix.of fun i j =>
    if hi : (i : ℕ) < n then
      if hj : (j : ℕ) < n then
        0.5 * max (sqDist (dst ⟨i, hi⟩) (dst ⟨j, hj⟩)) 1e-10 *
            Real.log (max (sqDist (dst ⟨i, hi⟩) (dst ⟨j, hj⟩)) 1e-10) +
          (if (i : ℕ) = (j : ℕ) then 1e-4 else 0)
      else ![1, (dst ⟨i, hi⟩).1, (dst ⟨i, hi⟩).2] ⟨(j : ℕ) - n, by have := j.isLt; omega⟩
    else
      if hj : (j : ℕ) < n then
        ![1, (dst ⟨j, hj⟩).1, (dst ⟨j, hj⟩).2] ⟨(i : ℕ) - n, by have := i.isLt; omega⟩
      else 0

/-- The TPS right-hand side as the specification words it (§4.3 / claim C1):
an `(n+3)×2` matrix whose top `n` rows are the `src` coordinates and whose
bottom 3 rows are zero. -/
def claim_V (n : ℕ) (src : Fin n → Pt) : Matrix (Fin (n + 3)) (Fin 2) ℝ :=
  Matrix.of fun i k =>
    if h : (i : ℕ) < n then (if k = 0 then (src ⟨i, h⟩).1 else (src ⟨i, h⟩).2) else 0

/-- The Landmark Aggregator contract as the specification words it (§4.1 /
claim C3): concatenate, in order, the free points truncated to the shorter of
the two images' free-point counts, then start and end points of the first
`min` line pairs, then the 4 corners of the first `min` face pairs; returns
`(src, dst)` with `src` built from the second pane and `dst` from the first,
matching the orientation used by `run_warp`. -/
def aggregate_spec {P : Type} (pane1 pane2 : PaneAnnotations P) : List P × List P :=
  let n_points := min pane1.points.length pane2.points.length
  let n_lines := min pane1.lines.length pane2.lines.length
  let n_faces := min pane1.faces.length pane2.faces.length
  let dst := pane1.points.take n_points
    ++ (pane1.lines.take n_lines).flatMap (fun l => [l.1, l.2])
    ++ (pane1.faces.take n_faces).flatMap (fun f => [f.1, f.2.1, f.2.2.1, f.2.2.2])
  let src := pane2.points.take n_points
    ++ (pane2.lines.take n_lines).flatMap (fun l => [l.1, l.2])
    ++ (pane2.faces.take n_faces).flatMap (fun f => [f.1, f.2.1, f.2.2.1, f.2.2.2])
  (src, dst)

/-- The interpolation flag of the `cv2.remap` call a TPS warp result carries,
when the warp succeeded. -/
def remapInterp {Img : Type} : Except PyErr (Option (RemapJob Img)) → Option InterpMode
  | .ok (some job) => some job.interp
  | _ => none

/-- The interpolation flag of the `cv2.warpPerspective` call a homography warp
result carries, when the warp succeeded. -/
def perspInterp {Img : Type} : Option (PerspJob Img) → Option InterpMode
  | some job => some job.interp
  | none => none

/-- The weight matrix of the identity spline: zero radial weights, affine
rows selecting `x` for the first output dimension and `y` for the second. -/
noncomputable def tpsIdWeights (n : ℕ) : Matrix (Fin (n + 3)) (Fin 2) ℝ :=
  Matrix.of fun i k =>
    (if i = (⟨n + 1, by omega⟩ : Fin (n + 3)) ∧ k = 0 then 1 else 0) +
    (if i = (⟨n + 2, by omega⟩ : Fin (n + 3)) ∧ k = 1 then 1 else 0)

/-! ### Concrete instances used by counterexamples and witnesses -/

/-- Destination control points with a duplicated point: `(0,0)` twice, then
`(1,0)` and `(0,1)`.  All pairwise squared distances are `0`, `1` or `2`. -/
noncomputable def exDst : Fin 4 → Pt := ![(0, 0), (0, 0), (1, 0), (0, 1)]

/-- Source targets for `exDst`: the two coincident destination points are sent
to source points one pixel apart. -/
noncomputable def exSrc : Fin 4 → Pt := ![(1, 0), (0, 0), (0, 0), (0, 0)]

/-- The kernel value at squared distance zero after clamping,
`U(1e-10) = 0.5 · 1e-10 · ln(1e-10)`. -/
noncomputable def exC : ℝ := 0.5 * 1e-10 * Real.log 1e-10

/-- The kernel value at squared distance two, `U(2) = ln 2`. -/
noncomputable def exE : ℝ := Real.log 2

/-- The system matrix `tps_L 4 exDst`, written out entrywise. -/
noncomputable def exL : Matrix (Fin 7) (Fin 7) ℝ :=
  !![exC + 1e-4, exC, 0, 0, 1, 0, 0;
     exC, exC + 1e-4, 0, 0, 1, 0, 0;
     0, 0, exC + 1e-4, exE, 1, 1, 0;
     0, 0, exE, exC + 1e-4, 1, 0, 1;
     1, 1, 1, 1, 0, 0, 0;
     0, 0, 1, 0, 0, 0, 0;
     0, 0, 0, 1, 0, 0, 0]

/-- The exact solution of the regularized system for `(exDst, exSrc)`:
weights `±(1·0)/(2·1e-4) = ±5000` on the duplicated pair, zero weights on the
other two points, affine part `a0 = 1/2`, `ax = -1/2`, `ay = -1/2` in the
first output dimension, and zero in the second. -/
noncomputable def exW : Matrix (Fin 7) (Fin 2) ℝ :=
  !![5000, 0;
     -5000, 0;
     0, 0;
     0, 0;
     1/2, 0;
     -1/2, 0;
     -1/2, 0]

/-- Annotation state of pane 1 with one free point and two lines (points are
labels here, since the aggregation code never inspects them). -/
def paneA_mis : PaneAnnotations ℕ := ⟨[0], [(1, 2), (3, 4)], []⟩

/-- Annotation state of pane 2 with no free points and two lines. -/
def paneB_mis : PaneAnnotations ℕ := ⟨[], [(11, 12), (13, 14)], []⟩

/-- Annotation state of pane 1 with three free points and nothing else. -/
noncomputable def pane3A : PaneAnnotations Pt := ⟨[(0, 0), (1, 0), (0, 1)], [], []⟩

/-- Annotation state of pane 2 with three free points and nothing else. -/
noncomputable def pane3B : PaneAnnotations Pt := ⟨[(0, 0), (2, 0), (0, 2)], [], []⟩

/-! ### Helper lemmas -/

theorem tps_L_entry (n : ℕ) (dst : Fin n → Pt) (i j : Fin (n + 3)) :
    tps_L n dst i j = claim_L n dst i j := by
  simp only [tps_L, claim_L, Matrix.of_apply, tps_K, tps_P, tpsU, Matrix.zero_apply]
  split_ifs <;> first
    | rfl
    | (exfalso; omega)
    | ring

theorem tps_V_entry (n : ℕ) (src : Fin n → Pt) (i : Fin (n + 3)) (k : Fin 2) :
    tps_V n src i k = claim_V n src i k := by
  simp only [tps_V, claim_V, Matrix.of_apply, Matrix.zero_apply]

/-! ### Claim theorems -/

/-- **C1.** For every call to the TPS estimator, the linear system is
assembled exactly as specified: the system matrix (built by the code's
sequence of block writes from the `dst` points, with kernel
`0.5·d²·ln(d²)` on squared distances clamped at `1e-10`, `1e-4` added to the
`K`-block diagonal, blocks `[[K, P], [Pᵀ, 0]]` with `P` rows `[1, x, y]`)
coincides with the specified matrix, and the right-hand side (top `n` rows
`src`, bottom 3 rows zero) with the specified one — in particular the spline
is fitted in the inverse direction, kernel from `dst`, targets from `src`,
and the solved weight matrix has `n+3` rows and 2 columns by type. -/
theorem tps_system_assembly_as_specified (n : ℕ) (dst src : Fin n → Pt) :
    tps_L n dst = claim_L n dst ∧ tps_V n src = claim_V n src :=
  ⟨Matrix.ext fun i j => tps_L_entry n dst i j,
   Matrix.ext fun i k => tps_V_entry n src i k⟩

/-- **C3 (code evaluated at the failing input).** With one free point in
pane 1, none in pane 2, and two lines in each pane, `run_warp` truncates the
already concatenated lists, pairing pane 2's first line start (label 11) with
pane 1's free point (label 0) and shifting every later pair, whereas the
specified aggregation truncates the free points first and keeps line
endpoints index-aligned. -/
theorem run_warp_aggregation_misaligned :
    run_warp_srcdst paneA_mis paneB_mis = ([11, 12, 13, 14], [0, 1, 2, 3]) ∧
    aggregate_spec paneA_mis paneB_mis = ([11, 12, 13, 14], [1, 2, 3, 4]) ∧
    run_warp_srcdst paneA_mis paneB_mis ≠ aggregate_spec paneA_mis paneB_mis := by
  refine ⟨by decide, by decide, by decide⟩

/-- **C5.** Whenever fewer than 4 aligned correspondence pairs are available
(`n = min(len(pts1), len(pts2)) < 4`), `run_warp` reports the
insufficient-constraints state without invoking the warper: the outcome is
`insufficient` for every possible warper strategy. -/
theorem run_warp_refuses_insufficient {Img : Type}
    (warper : Img → List Pt → List Pt → ℕ × ℕ → Option Img) (shape : Img → ℕ × ℕ)
    (pane1 pane2 : PaneAnnotations Pt) (img1 img2 : Img)
    (hn : min (collect_pts pane1 pane2).1.length (collect_pts pane1 pane2).2.length < 4) :
    run_warp warper shape pane1 pane2 (some img1) (some img2) =
      WarpOutcome.insufficient := by
  simp only [run_warp]
  rw [if_neg (by omega)]

/-- Witness for C5 at `n = 3`: three free points per pane. -/
theorem run_warp_refuses_insufficient_witness :
    (min (collect_pts pane3A pane3B).1.length (collect_pts pane3A pane3B).2.length < 4) ∧
    run_warp (fun img _ _ _ => some img) (fun _ => (100, 100)) pane3A pane3B
      (some (0 : ℕ)) (some 0) = WarpOutcome.insufficient := by
  have h : min (collect_pts pane3A pane3B).1.length (collect_pts pane3A pane3B).2.length < 4 := by
    simp [collect_pts, pane3A, pane3B]
  exact ⟨h, run_warp_refuses_insufficient _ _ _ _ _ _ h⟩

/-- **C4 counterexample.** A call with `len(src) = 3 ≠ 4 = len(dst)` does not
produce any clean failure value: the numpy block write `V[:N, :] = src_pts`
raises an uncaught `ValueError`, so the result is an exception, not an
`InvalidInput` failure (no such failure value exists in the code). -/
theorem tps_warp_mismatched_lengths_crashes :
    tpsWarp (0 : ℕ) [((0 : ℝ), (0 : ℝ)), (1, 0), (0, 1)]
        [((0 : ℝ), (0 : ℝ)), (1, 0), (0, 1), (1, 1)] (10, 10) =
      Except.error PyErr.valueError ∧
    ∀ r, tpsWarp (0 : ℕ) [((0 : ℝ), (0 : ℝ)), (1, 0), (0, 1)]
        [((0 : ℝ), (0 : ℝ)), (1, 0), (0, 1), (1, 1)] (10, 10) ≠ Except.ok r := by
  have h : tpsWarp (0 : ℕ) [((0 : ℝ), (0 : ℝ)), (1, 0), (0, 1)]
      [((0 : ℝ), (0 : ℝ)), (1, 0), (0, 1), (1, 1)] (10, 10) =
        Except.error PyErr.valueError := by
    simp only [tpsWarp]
    rw [if_neg (by simp)]
  exact ⟨h, fun r => by rw [h]; simp⟩

/-- **C4 amended.** The core performs no input re-validation: every call whose
`src` length differs from the `dst` length (and is not the numpy broadcast
case of a single row) raises an uncaught `ValueError` during system assembly
instead of returning a clean failure. -/
theorem tps_warp_no_revalidation {Img : Type} (img : Img) (src dst : List Pt)
    (sz : ℕ × ℕ) (hlen : src.length ≠ dst.length) (h1 : src.length ≠ 1) :
    tpsWarp img src dst sz = Except.error PyErr.valueError := by
  simp only [tpsWarp]
  rw [if_neg (by tauto)]

/-- Witness for the amended C4 at a concrete mismatched call. -/
theorem tps_warp_no_revalidation_witness :
    (([((0 : ℝ), (0 : ℝ)), (2, 0)].length ≠
        [((0 : ℝ), (0 : ℝ)), (1, 0), (0, 1), (1, 1)].length) ∧
      [((0 : ℝ), (0 : ℝ)), (2, 0)].length ≠ 1) ∧
    tpsWarp (0 : ℕ) [((0 : ℝ), (0 : ℝ)), (2, 0)]
        [((0 : ℝ), (0 : ℝ)), (1, 0), (0, 1), (1, 1)] (5, 5) =
      Except.error PyErr.valueError :=
  ⟨⟨by decide, by decide⟩, tps_warp_no_revalidation _ _ _ _ (by decide) (by decide)⟩

/-- **C7 counterexample.** A successful homography warp resamples with
`cv2.warpPerspective`'s default `INTER_LINEAR`, not bicubic: the call site
passes no flags argument. -/
theorem homography_default_interp_is_linear :
    homographyWarp (fun _ _ => some 1) (0 : ℕ) [((0 : ℝ), (0 : ℝ))]
        [((0 : ℝ), (0 : ℝ))] (4, 4) =
      some { img := 0, H := 1, size := (4, 4), interp := InterpMode.linear } ∧
    InterpMode.linear ≠ InterpMode.cubic :=
  ⟨rfl, by decide⟩

/-- **C7 amended.** Every successful TPS warp resamples with bicubic
interpolation (`cv2.INTER_CUBIC` is passed explicitly), while every
successful homography warp resamples with `cv2.warpPerspective`'s default
bilinear interpolation. -/
theorem warp_interpolation_defaults {Img : Type}
    (findHomography : List Pt → List Pt → Option (Matrix (Fin 3) (Fin 3) ℝ))
    (img : Img) (src dst : List Pt) (sz : ℕ × ℕ) :
    (remapInterp (tpsWarp img src dst sz) = some InterpMode.cubic ∨
      remapInterp (tpsWarp img src dst sz) = none) ∧
    (perspInterp (homographyWarp findHomography img src dst sz) = some InterpMode.linear ∨
      perspInterp (homographyWarp findHomography img src dst sz) = none) := by
  constructor
  · simp only [tpsWarp]
    split
    · split <;> simp [remapInterp]
    · simp [remapInterp]
  · simp only [homographyWarp]
    split <;> simp [perspInterp]

/-- **C9.** Both warp entry points are pure functions of their declared
inputs: two invocations on identical inputs return identical results.  The
repository code contains no randomness or hidden state of its own; the
external `cv2.findHomography` is represented by the function parameter it
is to the repository code. -/
theorem warp_idempotent_deterministic {Img : Type}
    (findHomography : List Pt → List Pt → Option (Matrix (Fin 3) (Fin 3) ℝ))
    (img : Img) (src dst : List Pt) (sz : ℕ × ℕ) :
    tpsWarp img src dst sz = tpsWarp img src dst sz ∧
    homographyWarp findHomography img src dst sz =
      homographyWarp findHomography img src dst sz :=
  ⟨rfl, rfl⟩

/-- A warp call that reaches the solve returns the `None` failure exactly when
the solve does. -/
theorem tps_warp_failure_iff {Img : Type} (img : Img) (src dst : List Pt)
    (sz : ℕ × ℕ) (h : src.length = dst.length ∨ src.length = 1) :
    (tpsWarp img src dst sz = Except.ok none ↔ tpsSolve src dst = none) := by
  unfold tpsWarp
  rw [if_pos h]
  cases h' : tpsSolve src dst with
  | none => simp
  | some w => simp

/-- Whether the TPS solve fails is equivalent to singularity of the system
matrix, which is assembled from `dst` alone. -/
theorem tpsSolve_eq_none_iff (src dst : List Pt) :
    tpsSolve src dst = none ↔ (tps_L dst.length (tpsDstF dst)).det = 0 := by
  unfold tpsSolve np_linalg_solve
  by_cases hdet : (tps_L dst.length (tpsDstF dst)).det = 0
  · rw [if_pos hdet]; simp [hdet]
  · rw [if_neg hdet]; simp [hdet]

/-- **C10.** Whether the TPS estimator fails its linear solve depends only on
the destination control points: for any two calls that reach the solve with
the same `dst` but arbitrary source points, source images and output sizes,
either both fail or neither does. -/
theorem tps_failure_independent_of_src {Img Img2 : Type} (img : Img) (img2 : Img2)
    (src src2 dst : List Pt) (sz sz2 : ℕ × ℕ)
    (h : src.length = dst.length ∨ src.length = 1)
    (h2 : src2.length = dst.length ∨ src2.length = 1) :
    (tpsWarp img src dst sz = Except.ok none ↔
      tpsWarp img2 src2 dst sz2 = Except.ok none) := by
  rw [tps_warp_failure_iff img src dst sz h, tps_warp_failure_iff img2 src2 dst sz2 h2,
    tpsSolve_eq_none_iff, tpsSolve_eq_none_iff]

/-- Witness for C10 at two concrete calls differing in image, sources and
output size but sharing `dst`. -/
theorem tps_failure_independent_of_src_witness :
    (([((1 : ℝ), (2 : ℝ)), (3, 4), (5, 6), (7, 8)].length =
        [((0 : ℝ), (0 : ℝ)), (1, 0), (0, 1), (1, 1)].length ∨
      [((1 : ℝ), (2 : ℝ)), (3, 4), (5, 6), (7, 8)].length = 1) ∧
     ([((9 : ℝ), (9 : ℝ)), (8, 8), (7, 7), (6, 6)].length =
        [((0 : ℝ), (0 : ℝ)), (1, 0), (0, 1), (1, 1)].length ∨
      [((9 : ℝ), (9 : ℝ)), (8, 8), (7, 7), (6, 6)].length = 1)) ∧
    (tpsWarp (0 : ℕ) [((1 : ℝ), (2 : ℝ)), (3, 4), (5, 6), (7, 8)]
        [((0 : ℝ), (0 : ℝ)), (1, 0), (0, 1), (1, 1)] (3, 3) = Except.ok none ↔
      tpsWarp (7 : ℕ) [((9 : ℝ), (9 : ℝ)), (8, 8), (7, 7), (6, 6)]
        [((0 : ℝ), (0 : ℝ)), (1, 0), (0, 1), (1, 1)] (9, 9) = Except.ok none) :=
  ⟨⟨by decide, by decide⟩,
   tps_failure_independent_of_src _ _ _ _ _ _ _ (by decide) (by decide)⟩

theorem exL_eq : tps_L 4 exDst = exL := by
  ext i j
  rw [tps_L_entry]
  simp only [claim_L, Matrix.of_apply]
  fin_cases i <;> fin_cases j <;>
    norm_num [exDst, exL, exC, exE, sqDist, max_def, Real.log_one]

theorem exL_det_ne_zero : (tps_L 4 exDst).det ≠ 0 := by
  rw [exL_eq]
  intro hdet
  obtain ⟨v, hv, hmul⟩ := Matrix.exists_mulVec_eq_zero_iff.mpr hdet
  have E : ∀ i : Fin 7, ∑ j : Fin 7, exL i j * v j = 0 := fun i => by
    have h := congrFun hmul i
    simpa [Matrix.mulVec, Matrix.dotProduct] using h
  have h0 := E 0
  have h1 := E 1
  have h2 := E 2
  have h3 := E 3
  have h4 := E 4
  have h5 := E 5
  have h6 := E 6
  rw [Fin.sum_univ_seven] at h0 h1 h2 h3 h4 h5 h6
  rw [show exL 0 0 = exC + 1e-4 from rfl,
      show exL 0 1 = exC from rfl,
      show exL 0 2 = 0 from rfl,
      show exL 0 3 = 0 from rfl,
      show exL 0 4 = 1 from rfl,
      show exL 0 5 = 0 from rfl,
      show exL 0 6 = 0 from rfl] at h0
  rw [show exL 1 0 = exC from rfl,
      show exL 1 1 = exC + 1e-4 from rfl,
      show exL 1 2 = 0 from rfl,
      show exL 1 3 = 0 from rfl,
      show exL 1 4 = 1 from rfl,
      show exL 1 5 = 0 from rfl,
      show exL 1 6 = 0 from rfl] at h1
  rw [show exL 2 0 = 0 from rfl,
      show exL 2 1 = 0 from rfl,
      show exL 2 2 = exC + 1e-4 from rfl,
      show exL 2 3 = exE from rfl,
      show exL 2 4 = 1 from rfl,
      show exL 2 5 = 1 from rfl,
      show exL 2 6 = 0 from rfl] at h2
  rw [show exL 3 0 = 0 from rfl,
      show exL 3 1 = 0 from rfl,
      show exL 3 2 = exE from rfl,
      show exL 3 3 = exC + 1e-4 from rfl,
      show exL 3 4 = 1 from rfl,
      show exL 3 5 = 0 from rfl,
      show exL 3 6 = 1 from rfl] at h3
  rw [show exL 4 0 = 1 from rfl,
      show exL 4 1 = 1 from rfl,
      show exL 4 2 = 1 from rfl,
      show exL 4 3 = 1 from rfl,
      show exL 4 4 = 0 from rfl,
      show exL 4 5 = 0 from rfl,
      show exL 4 6 = 0 from rfl] at h4
  rw [show exL 5 0 = 0 from rfl,
      show exL 5 1 = 0 from rfl,
      show exL 5 2 = 1 from rfl,
      show exL 5 3 = 0 from rfl,
      show exL 5 4 = 0 from rfl,
      show exL 5 5 = 0 from rfl,
      show exL 5 6 = 0 from rfl] at h5
  rw [show exL 6 0 = 0 from rfl,
      show exL 6 1 = 0 from rfl,
      show exL 6 2 = 0 from rfl,
      show exL 6 3 = 1 from rfl,
      show exL 6 4 = 0 from rfl,
      show exL 6 5 = 0 from rfl,
      show exL 6 6 = 0 from rfl] at h6
  have hv2 : v 2 = 0 := by linarith
  have hv3 : v 3 = 0 := by linarith
  have hd : 1e-4 * v 0 - 1e-4 * v 1 = 0 := by linear_combination h0 - h1
  have hs : v 0 + v 1 = 0 := by linarith
  have hv0 : v 0 = 0 := by linarith
  have hv1 : v 1 = 0 := by linarith
  have hv4 : v 4 = 0 := by linear_combination h0 - (exC + 1e-4) * hv0 - exC * hv1
  have hv5 : v 5 = 0 := by
    linear_combination h2 - (exC + 1e-4) * hv2 - exE * hv3 - hv4
  have hv6 : v 6 = 0 := by
    linear_combination h3 - exE * hv2 - (exC + 1e-4) * hv3 - hv4
  apply hv
  funext i
  fin_cases i <;> assumption

theorem exLW00 : ∑ j : Fin 7, exL 0 j * exW j 0 = tps_V 4 exSrc 0 0 := by
  rw [Fin.sum_univ_seven,
      show exL 0 0 = exC + 1e-4 from rfl,
      show exL 0 1 = exC from rfl,
      show exL 0 2 = 0 from rfl,
      show exL 0 3 = 0 from rfl,
      show exL 0 4 = 1 from rfl,
      show exL 0 5 = 0 from rfl,
      show exL 0 6 = 0 from rfl,
      show exW 0 0 = 5000 from rfl,
      show exW 1 0 = -5000 from rfl,
      show exW 2 0 = 0 from rfl,
      show exW 3 0 = 0 from rfl,
      show exW 4 0 = 1/2 from rfl,
      show exW 5 0 = -1/2 from rfl,
      show exW 6 0 = -1/2 from rfl,
      show tps_V 4 exSrc 0 0 = 1 from rfl]
  ring_nf

theorem exLW01 : ∑ j : Fin 7, exL 0 j * exW j 1 = tps_V 4 exSrc 0 1 := by
  rw [Fin.sum_univ_seven,
      show exL 0 0 = exC + 1e-4 from rfl,
      show exL 0 1 = exC from rfl,
      show exL 0 2 = 0 from rfl,
      show exL 0 3 = 0 from rfl,
      show exL 0 4 = 1 from rfl,
      show exL 0 5 = 0 from rfl,
      show exL 0 6 = 0 from rfl,
      show exW 0 1 = 0 from rfl,
      show exW 1 1 = 0 from rfl,
      show exW 2 1 = 0 from rfl,
      show exW 3 1 = 0 from rfl,
      show exW 4 1 = 0 from rfl,
      show exW 5 1 = 0 from rfl,
      show exW 6 1 = 0 from rfl,
      show tps_V 4 exSrc 0 1 = 0 from rfl]
  ring_nf

theorem exLW10 : ∑ j : Fin 7, exL 1 j * exW j 0 = tps_V 4 exSrc 1 0 := by
  rw [Fin.sum_univ_seven,
      show exL 1 0 = exC from rfl,
      show exL 1 1 = exC + 1e-4 from rfl,
      show exL 1 2 = 0 from rfl,
      show exL 1 3 = 0 from rfl,
      show exL 1 4 = 1 from rfl,
      show exL 1 5 = 0 from rfl,
      show exL 1 6 = 0 from rfl,
      show exW 0 0 = 5000 from rfl,
      show exW 1 0 = -5000 from rfl,
      show exW 2 0 = 0 from rfl,
      show exW 3 0 = 0 from rfl,
      show exW 4 0 = 1/2 from rfl,
      show exW 5 0 = -1/2 from rfl,
      show exW 6 0 = -1/2 from rfl,
      show tps_V 4 exSrc 1 0 = 0 from rfl]
  ring_nf

theorem exLW11 : ∑ j : Fin 7, exL 1 j * exW j 1 = tps_V 4 exSrc 1 1 := by
  rw [Fin.sum_univ_seven,
      show exL 1 0 = exC from rfl,
      show exL 1 1 = exC + 1e-4 from rfl,
      show exL 1 2 = 0 from rfl,
      show exL 1 3 = 0 from rfl,
      show exL 1 4 = 1 from rfl,
      show exL 1 5 = 0 from rfl,
      show exL 1 6 = 0 from rfl,
      show exW 0 1 = 0 from rfl,
      show exW 1 1 = 0 from rfl,
      show exW 2 1 = 0 from rfl,
      show exW 3 1 = 0 from rfl,
      show exW 4 1 = 0 from rfl,
      show exW 5 1 = 0 from rfl,
      show exW 6 1 = 0 from rfl,
      show tps_V 4 exSrc 1 1 = 0 from rfl]
  ring_nf

theorem exLW20 : ∑ j : Fin 7, exL 2 j * exW j 0 = tps_V 4 exSrc 2 0 := by
  rw [Fin.sum_univ_seven,
      show exL 2 0 = 0 from rfl,
      show exL 2 1 = 0 from rfl,
      show exL 2 2 = exC + 1e-4 from rfl,
      show exL 2 3 = exE from rfl,
      show exL 2 4 = 1 from rfl,
      show exL 2 5 = 1 from rfl,
      show exL 2 6 = 0 from rfl,
      show exW 0 0 = 5000 from rfl,
      show exW 1 0 = -5000 from rfl,
      show exW 2 0 = 0 from rfl,
      show exW 3 0 = 0 from rfl,
      show exW 4 0 = 1/2 from rfl,
      show exW 5 0 = -1/2 from rfl,
      show exW 6 0 = -1/2 from rfl,
      show tps_V 4 exSrc 2 0 = 0 from rfl]
  ring_nf

theorem exLW21 : ∑ j : Fin 7, exL 2 j * exW j 1 = tps_V 4 exSrc 2 1 := by
  rw [Fin.sum_univ_seven,
      show exL 2 0 = 0 from rfl,
      show exL 2 1 = 0 from rfl,
      show exL 2 2 = exC + 1e-4 from rfl,
      show exL 2 3 = exE from rfl,
      show exL 2 4 = 1 from rfl,
      show exL 2 5 = 1 from rfl,
      show exL 2 6 = 0 from rfl,
      show exW 0 1 = 0 from rfl,
      show exW 1 1 = 0 from rfl,
      show exW 2 1 = 0 from rfl,
      show exW 3 1 = 0 from rfl,
      show exW 4 1 = 0 from rfl,
      show exW 5 1 = 0 from rfl,
      show exW 6 1 = 0 from rfl,
      show tps_V 4 exSrc 2 1 = 0 from rfl]
  ring_nf

theorem exLW30 : ∑ j : Fin 7, exL 3 j * exW j 0 = tps_V 4 exSrc 3 0 := by
  rw [Fin.sum_univ_seven,
      show exL 3 0 = 0 from rfl,
      show exL 3 1 = 0 from rfl,
      show exL 3 2 = exE from rfl,
      show exL 3 3 = exC + 1e-4 from rfl,
      show exL 3 4 = 1 from rfl,
      show exL 3 5 = 0 from rfl,
      show exL 3 6 = 1 from rfl,
      show exW 0 0 = 5000 from rfl,
      show exW 1 0 = -5000 from rfl,
      show exW 2 0 = 0 from rfl,
      show exW 3 0 = 0 from rfl,
      show exW 4 0 = 1/2 from rfl,
      show exW 5 0 = -1/2 from rfl,
      show exW 6 0 = -1/2 from rfl,
      show tps_V 4 exSrc 3 0 = 0 from rfl]
  ring_nf

theorem exLW31 : ∑ j : Fin 7, exL 3 j * exW j 1 = tps_V 4 exSrc 3 1 := by
  rw [Fin.sum_univ_seven,
      show exL 3 0 = 0 from rfl,
      show exL 3 1 = 0 from rfl,
      show exL 3 2 = exE from rfl,
      show exL 3 3 = exC + 1e-4 from rfl,
      show exL 3 4 = 1 from rfl,
      show exL 3 5 = 0 from rfl,
      show exL 3 6 = 1 from rfl,
      show exW 0 1 = 0 from rfl,
      show exW 1 1 = 0 from rfl,
      show exW 2 1 = 0 from rfl,
      show exW 3 1 = 0 from rfl,
      show exW 4 1 = 0 from rfl,
      show exW 5 1 = 0 from rfl,
      show exW 6 1 = 0 from rfl,
      show tps_V 4 exSrc 3 1 = 0 from rfl]
  ring_nf

theorem exLW40 : ∑ j : Fin 7, exL 4 j * exW j 0 = tps_V 4 exSrc 4 0 := by
  rw [Fin.sum_univ_seven,
      show exL 4 0 = 1 from rfl,
      show exL 4 1 = 1 from rfl,
      show exL 4 2 = 1 from rfl,
      show exL 4 3 = 1 from rfl,
      show exL 4 4 = 0 from rfl,
      show exL 4 5 = 0 from rfl,
      show exL 4 6 = 0 from rfl,
      show exW 0 0 = 5000 from rfl,
      show exW 1 0 = -5000 from rfl,
      show exW 2 0 = 0 from rfl,
      show exW 3 0 = 0 from rfl,
      show exW 4 0 = 1/2 from rfl,
      show exW 5 0 = -1/2 from rfl,
      show exW 6 0 = -1/2 from rfl,
      show tps_V 4 exSrc 4 0 = 0 from rfl]
  ring_nf

theorem exLW41 : ∑ j : Fin 7, exL 4 j * exW j 1 = tps_V 4 exSrc 4 1 := by
  rw [Fin.sum_univ_seven,
      show exL 4 0 = 1 from rfl,
      show exL 4 1 = 1 from rfl,
      show exL 4 2 = 1 from rfl,
      show exL 4 3 = 1 from rfl,
      show exL 4 4 = 0 from rfl,
      show exL 4 5 = 0 from rfl,
      show exL 4 6 = 0 from rfl,
      show exW 0 1 = 0 from rfl,
      show exW 1 1 = 0 from rfl,
      show exW 2 1 = 0 from rfl,
      show exW 3 1 = 0 from rfl,
      show exW 4 1 = 0 from rfl,
      show exW 5 1 = 0 from rfl,
      show exW 6 1 = 0 from rfl,
      show tps_V 4 exSrc 4 1 = 0 from rfl]
  ring_nf

theorem exLW50 : ∑ j : Fin 7, exL 5 j * exW j 0 = tps_V 4 exSrc 5 0 := by
  rw [Fin.sum_univ_seven,
      show exL 5 0 = 0 from rfl,
      show exL 5 1 = 0 from rfl,
      show exL 5 2 = 1 from rfl,
      show exL 5 3 = 0 from rfl,
      show exL 5 4 = 0 from rfl,
      show exL 5 5 = 0 from rfl,
      show exL 5 6 = 0 from rfl,
      show exW 0 0 = 5000 from rfl,
      show exW 1 0 = -5000 from rfl,
      show exW 2 0 = 0 from rfl,
      show exW 3 0 = 0 from rfl,
      show exW 4 0 = 1/2 from rfl,
      show exW 5 0 = -1/2 from rfl,
      show exW 6 0 = -1/2 from rfl,
      show tps_V 4 exSrc 5 0 = 0 from rfl]
  ring_nf

theorem exLW51 : ∑ j : Fin 7, exL 5 j * exW j 1 = tps_V 4 exSrc 5 1 := by
  rw [Fin.sum_univ_seven,
      show exL 5 0 = 0 from rfl,
      show exL 5 1 = 0 from rfl,
      show exL 5 2 = 1 from rfl,
      show exL 5 3 = 0 from rfl,
      show exL 5 4 = 0 from rfl,
      show exL 5 5 = 0 from rfl,
      show exL 5 6 = 0 from rfl,
      show exW 0 1 = 0 from rfl,
      show exW 1 1 = 0 from rfl,
      show exW 2 1 = 0 from rfl,
      show exW 3 1 = 0 from rfl,
      show exW 4 1 = 0 from rfl,
      show exW 5 1 = 0 from rfl,
      show exW 6 1 = 0 from rfl,
      show tps_V 4 exSrc 5 1 = 0 from rfl]
  ring_nf

theorem exLW60 : ∑ j : Fin 7, exL 6 j * exW j 0 = tps_V 4 exSrc 6 0 := by
  rw [Fin.sum_univ_seven,
      show exL 6 0 = 0 from rfl,
      show exL 6 1 = 0 from rfl,
      show exL 6 2 = 0 from rfl,
      show exL 6 3 = 1 from rfl,
      show exL 6 4 = 0 from rfl,
      show exL 6 5 = 0 from rfl,
      show exL 6 6 = 0 from rfl,
      show exW 0 0 = 5000 from rfl,
      show exW 1 0 = -5000 from rfl,
      show exW 2 0 = 0 from rfl,
      show exW 3 0 = 0 from rfl,
      show exW 4 0 = 1/2 from rfl,
      show exW 5 0 = -1/2 from rfl,
      show exW 6 0 = -1/2 from rfl,
      show tps_V 4 exSrc 6 0 = 0 from rfl]
  ring_nf

theorem exLW61 : ∑ j : Fin 7, exL 6 j * exW j 1 = tps_V 4 exSrc 6 1 := by
  rw [Fin.sum_univ_seven,
      show exL 6 0 = 0 from rfl,
      show exL 6 1 = 0 from rfl,
      show exL 6 2 = 0 from rfl,
      show exL 6 3 = 1 from rfl,
      show exL 6 4 = 0 from rfl,
      show exL 6 5 = 0 from rfl,
      show exL 6 6 = 0 from rfl,
      show exW 0 1 = 0 from rfl,
      show exW 1 1 = 0 from rfl,
      show exW 2 1 = 0 from rfl,
      show exW 3 1 = 0 from rfl,
      show exW 4 1 = 0 from rfl,
      show exW 5 1 = 0 from rfl,
      show exW 6 1 = 0 from rfl,
      show tps_V 4 exSrc 6 1 = 0 from rfl]
  ring_nf

theorem exL_mul_exW : tps_L 4 exDst * exW = tps_V 4 exSrc := by
  rw [exL_eq]
  ext i k
  rw [Matrix.mul_apply]
  fin_cases i <;> fin_cases k
  exacts [exLW00, exLW01, exLW10, exLW11, exLW20, exLW21, exLW30, exLW31, exLW40, exLW41, exLW50, exLW51, exLW60, exLW61]

theorem tps_L_left (n : ℕ) (dst : Fin n → Pt) (i j : Fin n) :
    tps_L n dst (Fin.castAdd 3 i) (Fin.castAdd 3 j)
      = tpsU (sqDist (dst i) (dst j)) + (if (i : ℕ) = (j : ℕ) then 1e-4 else 0) := by
  rw [tps_L_entry]
  simp only [claim_L, Matrix.of_apply, Fin.coe_castAdd]
  rw [dif_pos i.isLt, dif_pos j.isLt]
  rfl

theorem tps_L_right (n : ℕ) (dst : Fin n → Pt) (i : Fin n) (j : Fin 3) :
    tps_L n dst (Fin.castAdd 3 i) (Fin.natAdd n j)
      = ![1, (dst i).1, (dst i).2] j := by
  rw [tps_L_entry]
  simp only [claim_L, Matrix.of_apply, Fin.coe_castAdd, Fin.coe_natAdd]
  rw [dif_pos i.isLt, dif_neg (by omega)]
  congr 1
  exact Fin.ext (by simp)

theorem tps_V_top (n : ℕ) (src : Fin n → Pt) (i : Fin n) (k : Fin 2) :
    tps_V n src (Fin.castAdd 3 i) k
      = (if k = 0 then (src i).1 else (src i).2) := by
  simp only [tps_V, Matrix.of_apply, Fin.coe_castAdd]
  rw [dif_pos i.isLt]

theorem tps_interpolation_residual (n : ℕ) (dst src : Fin n → Pt)
    (W : Matrix (Fin (n + 3)) (Fin 2) ℝ) (hW : tps_L n dst * W = tps_V n src)
    (i : Fin n) :
    tpsEval n dst W (dst i)
      = ((src i).1 - 1e-4 * W (Fin.castAdd 3 i) 0,
         (src i).2 - 1e-4 * W (Fin.castAdd 3 i) 1) := by
  have key : ∀ k : Fin 2,
      (∑ j : Fin n, tpsU (sqDist (dst i) (dst j)) * W (Fin.castAdd 3 j) k)
        + 1e-4 * W (Fin.castAdd 3 i) k
        + (1 * W (Fin.natAdd n 0) k + (dst i).1 * W (Fin.natAdd n 1) k
            + (dst i).2 * W (Fin.natAdd n 2) k)
      = (if k = 0 then (src i).1 else (src i).2) := by
    intro k
    have h := congrFun (congrFun hW (Fin.castAdd 3 i)) k
    rw [Matrix.mul_apply, Fin.sum_univ_add, tps_V_top] at h
    simp only [tps_L_left, tps_L_right] at h
    rw [Fin.sum_univ_three] at h
    simp only [Matrix.cons_val_zero, Matrix.cons_val_one, Matrix.head_cons,
      Matrix.cons_val_two, Matrix.tail_cons] at h
    simp only [add_mul, ite_mul, zero_mul, Finset.sum_add_distrib] at h
    simp only [Fin.val_eq_val, Finset.sum_ite_eq, Finset.mem_univ, if_true] at h
    linear_combination h
  have e0 := key 0
  have e1 := key 1
  rw [if_pos rfl] at e0
  rw [if_neg (by decide)] at e1
  refine Prod.ext ?_ ?_
  · show 1 * W (Fin.natAdd n 0) 0 + (dst i).1 * W (Fin.natAdd n 1) 0
        + (dst i).2 * W (Fin.natAdd n 2) 0
        + ∑ j : Fin n, tpsU (sqDist (dst i) (dst j)) * W (Fin.castAdd 3 j) 0
      = (src i).1 - 1e-4 * W (Fin.castAdd 3 i) 0
    linear_combination e0
  · show 1 * W (Fin.natAdd n 0) 1 + (dst i).1 * W (Fin.natAdd n 1) 1
        + (dst i).2 * W (Fin.natAdd n 2) 1
        + ∑ j : Fin n, tpsU (sqDist (dst i) (dst j)) * W (Fin.castAdd 3 j) 1
      = (src i).2 - 1e-4 * W (Fin.castAdd 3 i) 1
    linear_combination e1

theorem ex_solve : np_linalg_solve (tps_L 4 exDst) (tps_V 4 exSrc) = some exW := by
  have hdet := exL_det_ne_zero
  unfold np_linalg_solve
  rw [if_neg hdet]
  congr 1
  calc (tps_L 4 exDst)⁻¹ * tps_V 4 exSrc
      = (tps_L 4 exDst)⁻¹ * (tps_L 4 exDst * exW) := by rw [exL_mul_exW]
    _ = (tps_L 4 exDst)⁻¹ * tps_L 4 exDst * exW := by rw [Matrix.mul_assoc]
    _ = exW := by
        rw [Matrix.nonsing_inv_mul _ (isUnit_iff_ne_zero.mpr hdet), Matrix.one_mul]

/-- **C2 counterexample.** On the correspondence set `exDst`/`exSrc` (a
duplicated destination point whose two source targets are one pixel apart)
the TPS estimation succeeds — the regularization makes the system
nonsingular, with solution `exW` — yet evaluating the fitted transform at
`dst[0]` misses `src[0]` by `1/2` pixel, far beyond the claimed `1e-3`
tolerance. -/
theorem tps_not_exact_interpolation :
    np_linalg_solve (tps_L 4 exDst) (tps_V 4 exSrc) = some exW ∧
    1e-3 < |(tpsEval 4 exDst exW (exDst 0)).1 - (exSrc 0).1| := by
  refine ⟨ex_solve, ?_⟩
  have hdiff : (tpsEval 4 exDst exW (exDst 0)).1 - (exSrc 0).1 = -(1 / 2) := by
    rw [tps_interpolation_residual 4 exDst exSrc exW exL_mul_exW 0]
    show ((exSrc (0 : Fin 4)).1 - 1e-4 * exW (Fin.castAdd 3 (0 : Fin 4)) 0)
        - (exSrc (0 : Fin 4)).1 = -(1 / 2)
    rw [show (exSrc (0 : Fin 4)).1 = 1 from rfl,
        show exW (Fin.castAdd 3 (0 : Fin 4)) 0 = 5000 from rfl]
    norm_num
  rw [hdiff, abs_neg, abs_of_pos (by norm_num : (0 : ℝ) < 1 / 2)]
  norm_num

/-- **C2 amended.** The fitted TPS transform does not exactly interpolate the
correspondences: because of the `1e-4` regularization added to the `K`-block
diagonal, evaluating the fitted spline at control point `dst i` yields
`src i` minus `1e-4` times the `i`-th row of the solved weight matrix, in
each output dimension.  The `1e-3` tolerance therefore holds exactly when
each weight in the solution has magnitude at most `10`, and fails in general
(error `0.5` pixel on the duplicated-point instance). -/
theorem tps_control_point_residual (n : ℕ) (dst src : Fin n → Pt)
    (W : Matrix (Fin (n + 3)) (Fin 2) ℝ) (hW : tps_L n dst * W = tps_V n src)
    (i : Fin n) :
    tpsEval n dst W (dst i)
      = ((src i).1 - 1e-4 * W (Fin.castAdd 3 i) 0,
         (src i).2 - 1e-4 * W (Fin.castAdd 3 i) 1) :=
  tps_interpolation_residual n dst src W hW i

/-- Witness for the amended C2 at the duplicated-point instance. -/
theorem tps_control_point_residual_witness :
    (tps_L 4 exDst * exW = tps_V 4 exSrc) ∧
    tpsEval 4 exDst exW (exDst 0)
      = ((exSrc 0).1 - 1e-4 * exW (Fin.castAdd 3 0) 0,
         (exSrc 0).2 - 1e-4 * exW (Fin.castAdd 3 0) 1) :=
  ⟨exL_mul_exW, tps_control_point_residual 4 exDst exSrc exW exL_mul_exW 0⟩

theorem tps_L_bottom_left (n : ℕ) (dst : Fin n → Pt) (i : Fin 3) (j : Fin n) :
    tps_L n dst (Fin.natAdd n i) (Fin.castAdd 3 j)
      = ![1, (dst j).1, (dst j).2] i := by
  rw [tps_L_entry]
  simp only [claim_L, Matrix.of_apply, Fin.coe_natAdd, Fin.coe_castAdd]
  rw [dif_neg (by omega), dif_pos j.isLt]
  congr 1
  exact Fin.ext (by simp)

theorem tps_L_bottom_right (n : ℕ) (dst : Fin n → Pt) (i j : Fin 3) :
    tps_L n dst (Fin.natAdd n i) (Fin.natAdd n j) = 0 := by
  rw [tps_L_entry]
  simp only [claim_L, Matrix.of_apply, Fin.coe_natAdd]
  rw [dif_neg (by omega), dif_neg (by omega)]

theorem tps_L_mul_idWeights (n : ℕ) (dst : Fin n → Pt) :
    tps_L n dst * tpsIdWeights n = tps_V n dst := by
  ext i k
  rw [Matrix.mul_apply]
  simp only [tpsIdWeights, Matrix.of_apply, mul_add, Finset.sum_add_distrib,
    ite_and, mul_ite, mul_one, mul_zero, Finset.sum_ite_eq', Finset.mem_univ,
    if_true]
  refine Fin.addCases (motive := fun r =>
      ((if k = 0 then tps_L n dst r ⟨n + 1, by omega⟩ else 0) +
        if k = 1 then tps_L n dst r ⟨n + 2, by omega⟩ else 0)
        = tps_V n dst r k) ?_ ?_ i
  · intro r
    rw [show (⟨n + 1, by omega⟩ : Fin (n + 3)) = Fin.natAdd n 1 from Fin.ext (by simp),
      show (⟨n + 2, by omega⟩ : Fin (n + 3)) = Fin.natAdd n 2 from Fin.ext (by simp),
      tps_L_right, tps_L_right, tps_V_top]
    simp only [Matrix.cons_val_zero, Matrix.cons_val_one, Matrix.head_cons,
      Matrix.cons_val_two, Matrix.tail_cons]
    fin_cases k
    · simp
    · simp
  · intro r
    rw [show (⟨n + 1, by omega⟩ : Fin (n + 3)) = Fin.natAdd n 1 from Fin.ext (by simp),
      show (⟨n + 2, by omega⟩ : Fin (n + 3)) = Fin.natAdd n 2 from Fin.ext (by simp),
      tps_L_bottom_right, tps_L_bottom_right]
    have hV : tps_V n dst (Fin.natAdd n r) k = 0 := by
      simp only [tps_V, Matrix.of_apply, Fin.coe_natAdd]
      rw [dif_neg (by omega)]
      rfl
    rw [hV]
    simp

theorem tpsEval_idWeights (n : ℕ) (dst : Fin n → Pt) (q : Pt) :
    tpsEval n dst (tpsIdWeights n) q = q := by
  have hk01 : (0 : Fin 2) ≠ 1 := by decide
  have hk10 : (1 : Fin 2) ≠ 0 := by decide
  have wid_j : ∀ (j : Fin n) (k : Fin 2),
      tpsIdWeights n ⟨(j : ℕ), by have := j.isLt; omega⟩ k = 0 := by
    intro j k
    have h1 : (j : ℕ) ≠ n + 1 := by have := j.isLt; omega
    have h2 : (j : ℕ) ≠ n + 2 := by have := j.isLt; omega
    simp [tpsIdWeights, Fin.mk.injEq, h1, h2]
  have wid_n : ∀ k : Fin 2, tpsIdWeights n ⟨n, by omega⟩ k = 0 := by
    intro k
    have h1 : n ≠ n + 1 := by omega
    have h2 : n ≠ n + 2 := by omega
    simp [tpsIdWeights, Fin.mk.injEq, h1, h2]
  have wid_n1 : ∀ k : Fin 2,
      tpsIdWeights n ⟨n + 1, by omega⟩ k = (if k = 0 then 1 else 0) := by
    intro k
    have h2 : n + 1 ≠ n + 2 := by omega
    fin_cases k
    · simp [tpsIdWeights, Fin.mk.injEq, h2, hk01]
    · simp [tpsIdWeights, Fin.mk.injEq, h2, hk10]
  have wid_n2 : ∀ k : Fin 2,
      tpsIdWeights n ⟨n + 2, by omega⟩ k = (if k = 1 then 1 else 0) := by
    intro k
    have h2 : n + 2 ≠ n + 1 := by omega
    fin_cases k
    · simp [tpsIdWeights, Fin.mk.injEq, h2, hk01]
    · simp [tpsIdWeights, Fin.mk.injEq, h2, hk10]
  refine Prod.ext ?_ ?_
  · show 1 * tpsIdWeights n ⟨n, by omega⟩ 0
        + q.1 * tpsIdWeights n ⟨n + 1, by omega⟩ 0
        + q.2 * tpsIdWeights n ⟨n + 2, by omega⟩ 0
        + ∑ j : Fin n, tpsU (sqDist q (dst j)) *
            tpsIdWeights n ⟨(j : ℕ), by have := j.isLt; omega⟩ 0
      = q.1
    simp only [wid_j, wid_n, wid_n1, wid_n2, mul_zero, Finset.sum_const_zero]
    norm_num
  · show 1 * tpsIdWeights n ⟨n, by omega⟩ 1
        + q.1 * tpsIdWeights n ⟨n + 1, by omega⟩ 1
        + q.2 * tpsIdWeights n ⟨n + 2, by omega⟩ 1
        + ∑ j : Fin n, tpsU (sqDist q (dst j)) *
            tpsIdWeights n ⟨(j : ℕ), by have := j.isLt; omega⟩ 1
      = q.2
    simp only [wid_j, wid_n, wid_n1, wid_n2, mul_zero, Finset.sum_const_zero]
    norm_num

theorem projApply_one (p : Pt) : projApply 1 p = some p := by
  unfold projApply
  rw [show ((1 : Matrix (Fin 3) (Fin 3) ℝ) 2 0) = 0 from rfl,
    show ((1 : Matrix (Fin 3) (Fin 3) ℝ) 2 1) = 0 from rfl,
    show ((1 : Matrix (Fin 3) (Fin 3) ℝ) 2 2) = 1 from rfl,
    show ((1 : Matrix (Fin 3) (Fin 3) ℝ) 0 0) = 1 from rfl,
    show ((1 : Matrix (Fin 3) (Fin 3) ℝ) 0 1) = 0 from rfl,
    show ((1 : Matrix (Fin 3) (Fin 3) ℝ) 0 2) = 0 from rfl,
    show ((1 : Matrix (Fin 3) (Fin 3) ℝ) 1 0) = 0 from rfl,
    show ((1 : Matrix (Fin 3) (Fin 3) ℝ) 1 1) = 1 from rfl,
    show ((1 : Matrix (Fin 3) (Fin 3) ℝ) 1 2) = 0 from rfl]
  norm_num

/-- A destination configuration whose points all lie on the `x`-axis makes
the `y`-row of the system matrix vanish, so the system is singular. -/
theorem tps_L_det_zero_of_zero_y (n : ℕ) (dst : Fin n → Pt)
    (h : ∀ j, (dst j).2 = 0) : (tps_L n dst).det = 0 := by
  apply Matrix.det_eq_zero_of_row_eq_zero (Fin.natAdd n 2)
  intro j
  refine Fin.addCases (motive := fun j => tps_L n dst (Fin.natAdd n 2) j = 0) ?_ ?_ j
  · intro jj
    rw [tps_L_bottom_left]
    simp only [Matrix.cons_val_two, Matrix.tail_cons, Matrix.head_cons]
    exact h jj
  · intro jj
    exact tps_L_bottom_right n dst 2 jj

/-- **C8 counterexample.** With `src = dst` four collinear points (all on the
`x`-axis), the TPS estimator produces no transform at all — the system is
singular and the warp returns the `None` failure — so "both estimators
produce a transform that is the identity" fails as stated on degenerate
self-correspondences; it needs a solvability proviso. -/
theorem tps_identity_fails_degenerate :
    tpsWarp (0 : ℕ) [((0 : ℝ), (0 : ℝ)), (1, 0), (2, 0), (3, 0)]
        [((0 : ℝ), (0 : ℝ)), (1, 0), (2, 0), (3, 0)] (4, 4) = Except.ok none := by
  rw [tps_warp_failure_iff _ _ _ _ (Or.inl rfl), tpsSolve_eq_none_iff]
  apply tps_L_det_zero_of_zero_y
  intro j
  fin_cases j <;> rfl

/-- **C8 amended.** Provided estimation succeeds, the identity property
holds.  TPS: when the targets equal the control points (`src = dst`) and the
regularized system is nonsingular, the solve returns exactly the
identity-spline weights, whose evaluation is the identity map at every query
point (hence the dense map is the identity grid).  Homography: whatever
matrix the external RANSAC estimator returns, if it exactly fits the
self-correspondences — as the spec's exact-refit description guarantees for
consistent inputs — then it fixes every landmark. -/
theorem warp_identity_when_estimation_succeeds (n : ℕ) (dst : Fin n → Pt)
    (findHomography : List Pt → List Pt → Option (Matrix (Fin 3) (Fin 3) ℝ))
    (pts : List Pt) (hdet : (tps_L n dst).det ≠ 0)
    (hfit : ∀ H, findHomography pts pts = some H → fitsAll H pts pts) :
    (np_linalg_solve (tps_L n dst) (tps_V n dst) = some (tpsIdWeights n) ∧
      ∀ q : Pt, tpsEval n dst (tpsIdWeights n) q = q) ∧
    (∀ H, findHomography pts pts = some H →
      ∀ i : ℕ, ∀ h : i < pts.length,
        projApply H (pts.get ⟨i, h⟩) = some (pts.get ⟨i, h⟩)) := by
  refine ⟨⟨?_, fun q => tpsEval_idWeights n dst q⟩, fun H hH i h => hfit H hH i h h⟩
  unfold np_linalg_solve
  rw [if_neg hdet]
  congr 1
  calc (tps_L n dst)⁻¹ * tps_V n dst
      = (tps_L n dst)⁻¹ * (tps_L n dst * tpsIdWeights n) := by
        rw [tps_L_mul_idWeights]
    _ = (tps_L n dst)⁻¹ * tps_L n dst * tpsIdWeights n := by rw [Matrix.mul_assoc]
    _ = tpsIdWeights n := by
        rw [Matrix.nonsing_inv_mul _ (isUnit_iff_ne_zero.mpr hdet), Matrix.one_mul]

/-- Witness for the amended C8: the nonsingular `exDst` configuration with
`src = dst`, and the constant-identity homography estimator. -/
theorem warp_identity_when_estimation_succeeds_witness :
    ((tps_L 4 exDst).det ≠ 0) ∧
    ((np_linalg_solve (tps_L 4 exDst) (tps_V 4 exDst) = some (tpsIdWeights 4) ∧
        ∀ q : Pt, tpsEval 4 exDst (tpsIdWeights 4) q = q) ∧
      (∀ H, (fun (_ _ : List Pt) => some (1 : Matrix (Fin 3) (Fin 3) ℝ))
            [((0 : ℝ), (0 : ℝ)), (0, 0), (1, 0), (0, 1)]
            [((0 : ℝ), (0 : ℝ)), (0, 0), (1, 0), (0, 1)] = some H →
        ∀ i : ℕ, ∀ h : i < ([((0 : ℝ), (0 : ℝ)), (0, 0), (1, 0), (0, 1)] : List Pt).length,
          projApply H (([((0 : ℝ), (0 : ℝ)), (0, 0), (1, 0), (0, 1)] : List Pt).get ⟨i, h⟩)
            = some (([((0 : ℝ), (0 : ℝ)), (0, 0), (1, 0), (0, 1)] : List Pt).get ⟨i, h⟩))) :=
  ⟨exL_det_ne_zero,
   warp_identity_when_estimation_succeeds 4 exDst
     (fun _ _ => some (1 : Matrix (Fin 3) (Fin 3) ℝ))
     [((0 : ℝ), (0 : ℝ)), (0, 0), (1, 0), (0, 1)]
     exL_det_ne_zero
     (fun H hH => by
        cases Option.some.inj hH
        intro i hs hd
        exact projApply_one _)⟩

end ImageMerge
